import Mathlib

/-!
# Verification of the RoyalUr-Python core (`royalur/dice.py`, `royalur/model.py`)

A shallow embedding of the dice subsystem (`Roll`, `BinaryDice`,
`BinaryDice0AsMax`) and of the board model (`Tile`, `Piece`, `Move`),
together with theorems settling the specification claims.

Modelling conventions:
* Python `int` is `ℤ` (or `ℕ` where the source value is a count that is
  manifestly non-negative, e.g. `num_die`, a fold of `+1` steps, or a
  validated `path_index`).
* Python `float` probabilities are embedded as `ℚ`: every probability the
  source computes is `C(n,k) * 0.5^n`, a dyadic rational, and the source's
  arithmetic (`0.5 ** n`, integer `//` for the running binomial
  coefficient, one product per entry) is exact on these values.
* Python strings are sequences of code points, embedded as `List Char`.
* A function that can raise returns an `Option` (when only one failure
  mode matters) or an `Except PyError` (when a claim depends on which of
  `ValueError`, `TypeError` or `AttributeError` is raised), with the
  error for the raising outcome.
* The process-wide random source consumed by `roll_value` is abstracted as
  an arbitrary stream `flips : ℕ → Bool` of coin results
  (`flips i = true` models `random.random() >= 0.5` on draw `i`).
* Attribute reads on `self` resolve as Python resolves them. Every class
  in the `Dice` hierarchy declares `__slots__` (including `abc.ABC`), so
  instances have no `__dict__`; a read of a name for which no slot,
  property or class attribute exists anywhere in the hierarchy — such as
  `self.max_roll_value` in `BinaryDice0AsMax`, whose only slot is
  `_max_roll_value` and which defines no `max_roll_value` property and
  no `__getattr__` — raises `AttributeError`.
* Where the source's untyped call structure matters (`create_path`
  passes its collected waypoint tuple to `Tile.create_list` without
  unpacking it), values are embedded in a small Python value universe
  `PyVal`, so the tuple unpacking `for x, y in coordinates` and the
  int-versus-tuple comparison inside `Tile.__init__` can be traced
  faithfully.
-/

namespace RoyalUr

/-! ## Definitions: the dice subsystem (`dice.py`) and the board model (`model.py`) -/

/-- `Roll`: a roll of the dice, wrapping its integer value
(`dice.py`, class `Roll`). -/
structure Roll where
  value : ℤ
deriving DecidableEq

/-- The exception kinds the embedded code can raise: `ValueError` from
the explicit `raise` statements and from failed tuple unpacking,
`TypeError` from comparing a tuple with an int, `AttributeError` from
reading an attribute no slot or property defines. -/
inductive PyError where
  | valueError
  | typeError
  | attributeError
deriving DecidableEq

/-- A fragment of Python's value universe, just big enough to trace the
unstarred `Tile.create_list(coordinates)` call in `create_path`:
integers and tuples. -/
inductive PyVal where
  | int (z : ℤ)
  | tuple (items : List PyVal)

namespace BinaryDice

/-- The loop body of `BinaryDice.__init__` (`dice.py` lines 116-121):
starting from `nChooseK` at loop counter `roll`, run `iters` more
iterations, each appending `baseProb * nChooseK` (with
`baseProb = 0.5 ** num_die`) and then updating
`nChooseK = nChooseK * (num_die - roll) // (roll + 1)` with integer
(floor) division. -/
def rollProbabilitiesLoop (num_die : ℕ) : ℕ → ℕ → ℕ → List ℚ
  | _, _, 0 => []
  | nChooseK, roll, iters + 1 =>
      ((1 / 2 : ℚ) ^ num_die * nChooseK) ::
        rollProbabilitiesLoop num_die (nChooseK * (num_die - roll) / (roll + 1))
          (roll + 1) iters

/-- `self._roll_probabilities` as computed by `BinaryDice.__init__`:
the loop runs for `roll in range(0, num_die + 1)` starting from
`nChooseK = 1`. -/
def rollProbabilities (num_die : ℕ) : List ℚ :=
  rollProbabilitiesLoop num_die 1 0 (num_die + 1)

/-- `BinaryDice.get_max_roll_value` returns `self._num_die`. -/
def get_max_roll_value (num_die : ℕ) : ℕ := num_die

/-- `BinaryDice.roll_value` (`dice.py` lines 139-146): start from 0 and,
for each of the `num_die` draws from the random source, add 1 when the
draw shows at least 0.5. -/
def roll_value (num_die : ℕ) (flips : ℕ → Bool) : ℕ :=
  (List.range num_die).foldl (fun value i => if flips i then value + 1 else value) 0

/-- `BinaryDice.generate_roll` (`dice.py` lines 149-153): raises
`ValueError` when `value < 0 or value > self._num_die`, otherwise
returns `Roll(value)`. -/
def generate_roll (num_die : ℕ) (value : ℤ) : Option Roll :=
  if value < 0 ∨ value > (num_die : ℤ) then none
  else some ⟨value⟩

/-- `Dice.roll` (`dice.py` line 99): `generate_roll(roll_value())`. -/
def roll (num_die : ℕ) (flips : ℕ → Bool) : Option Roll :=
  generate_roll num_die (roll_value num_die flips)

end BinaryDice

namespace BinaryDice0AsMax

/-- `self._max_roll_value` as assigned by `BinaryDice0AsMax.__init__`
(`dice.py` line 167): `num_die + 1`. This is the slot's value; reading
it through the name `max_roll_value` is a different operation, below. -/
def max_roll_value (num_die : ℕ) : ℕ := num_die + 1

/-- The attribute read `self.max_roll_value` (`dice.py` lines 176, 181
and 185). The class hierarchy declares `__slots__` throughout and its
only slot here is `_max_roll_value`; no class in the hierarchy defines
a `max_roll_value` property (the only properties are `Roll.value`,
`Dice.name` and `BinaryDice.num_die`) and none defines `__getattr__`,
so the lookup finds nothing and raises `AttributeError`. -/
def max_roll_value_attr : Except PyError ℕ :=
  Except.error PyError.attributeError

/-- `BinaryDice0AsMax.get_max_roll_value` (`dice.py` lines 175-176):
`return self.max_roll_value` — the attribute read raises. -/
def get_max_roll_value (num_die : ℕ) : Except PyError ℕ :=
  max_roll_value_attr

/-- `self._roll_probabilities` as reassigned by
`BinaryDice0AsMax.__init__` (`dice.py` lines 168-172):
`[0, *parent[1:], parent[0]]` where `parent` is the list computed by
`BinaryDice.__init__`. -/
def rollProbabilities (num_die : ℕ) : List ℚ :=
  0 :: ((BinaryDice.rollProbabilities num_die).drop 1
    ++ [(BinaryDice.rollProbabilities num_die).headI])

/-- `BinaryDice0AsMax.roll_value` (`dice.py` lines 179-181):
`return self.max_roll_value if value == 0 else value`. The conditional
expression evaluates `self.max_roll_value` only when the parent rolled
0 — and that read raises `AttributeError`. -/
def roll_value (num_die : ℕ) (flips : ℕ → Bool) : Except PyError ℕ :=
  if BinaryDice.roll_value num_die flips = 0 then max_roll_value_attr
  else Except.ok (BinaryDice.roll_value num_die flips)

/-- `BinaryDice0AsMax.generate_roll` (`dice.py` lines 184-188):
`if value <= 0 or value > self.max_roll_value: raise ValueError(...)`.
The `or` short-circuits: `value <= 0` raises the `ValueError`; any
other value reaches the `self.max_roll_value` read, which raises
`AttributeError` before the comparison (the `Except.ok` branch after
it is the unreachable intended behaviour). -/
def generate_roll (num_die : ℕ) (value : ℤ) : Except PyError Roll :=
  if value ≤ 0 then Except.error PyError.valueError
  else
    max_roll_value_attr.bind (fun mx =>
      if value > (mx : ℤ) then Except.error PyError.valueError
      else Except.ok ⟨value⟩)

end BinaryDice0AsMax

/-- `PlayerType` (`model.py`): the two players. -/
inductive PlayerType where
  | LIGHT
  | DARK
deriving DecidableEq

/-- `Tile`: a position on or off the board (`model.py`, class `Tile`),
holding the 1-based coordinates. The 0-based `ix`/`iy` are the derived
values `x - 1`/`y - 1` and carry no extra information. -/
structure Tile where
  x : ℤ
  y : ℤ
deriving DecidableEq

namespace Tile

/-- The validation performed by `Tile.__init__` (`model.py` lines
68-77): `x` in `[1, 26]` and `y ≥ 0`. -/
def valid (t : Tile) : Prop := 1 ≤ t.x ∧ t.x ≤ 26 ∧ 0 ≤ t.y

instance (t : Tile) : Decidable t.valid := by
  unfold valid; infer_instance

/-- `Tile(x, y)` as a fallible constructor: `none` models the
`ValueError` raised on out-of-range coordinates. -/
def make (x y : ℤ) : Option Tile :=
  if x < 1 ∨ x > 26 then none
  else if y < 0 then none
  else some ⟨x, y⟩

/-- `Tile.step_towards` (`model.py` lines 87-100). `abs` on Python ints
is embedded as `Int.natAbs`. -/
def step_towards (t other : Tile) : Tile :=
  let dx := other.x - t.x
  let dy := other.y - t.y
  if dx.natAbs + dy.natAbs ≤ 1 then other
  else if dx.natAbs < dy.natAbs then ⟨t.x, t.y + (if dy > 0 then 1 else -1)⟩
  else ⟨t.x + (if dx > 0 then 1 else -1), t.y⟩

/-- Manhattan distance between two tiles, the termination measure of the
`while current != next` loop in `Tile.create_path`. -/
def manhattan (a b : Tile) : ℕ := (b.x - a.x).natAbs + (b.y - a.y).natAbs

/-- The body of `while current != next` in `Tile.create_path`
(`model.py` lines 150-152): the tiles appended while walking from
`current` to `nxt` (each step lands one tile closer; the walk ends when
the target is reached). -/
def walk (current nxt : Tile) : List Tile :=
  if h : current = nxt then []
  else step_towards current nxt :: walk (step_towards current nxt) nxt
termination_by manhattan current nxt
decreasing_by
  obtain ⟨cx, cy⟩ := current
  obtain ⟨nx, ny⟩ := nxt
  have hne : ¬(cx = nx ∧ cy = ny) := fun hc => h (by simp [hc.1, hc.2])
  simp only [step_towards, manhattan]
  split_ifs <;> simp only [manhattan] <;> omega

/-- The `for index in range(1, len(waypoints))` loop of
`Tile.create_path` (`model.py` lines 147-152): all tiles appended after
the initial `path = [waypoints[0]]`, walking each consecutive waypoint
pair in turn. -/
def path_segments (current : Tile) : List Tile → List Tile
  | [] => []
  | nxt :: rest => walk current nxt ++ path_segments nxt rest

/-- Python tuple unpacking `x, y = element` (the comprehension head
`for x, y in coordinates` of `create_list`): succeeds only on a
two-element tuple; any other tuple length raises `ValueError`, an int
is not iterable (`TypeError`). -/
def unpack2 : PyVal → Except PyError (PyVal × PyVal)
  | .tuple [a, b] => Except.ok (a, b)
  | .tuple _ => Except.error PyError.valueError
  | .int _ => Except.error PyError.typeError

/-- `Tile(x, y)` applied to arbitrary Python values: `Tile.__init__`
first evaluates `x < 1`, which raises `TypeError` unless both arguments
are ints (tuples do not order-compare with ints); on ints it performs
the range checks, raising `ValueError` out of range. -/
def makeVal : PyVal → PyVal → Except PyError Tile
  | .int x, .int y =>
      match make x y with
      | none => Except.error PyError.valueError
      | some t => Except.ok t
  | _, _ => Except.error PyError.typeError

/-- `Tile.create_list` (`model.py` lines 130-135) on the tuple its
starred parameter collected: `[Tile(x, y) for x, y in coordinates]`. -/
def create_list (coordinates : List PyVal) : Except PyError (List Tile) :=
  coordinates.mapM (fun c => (unpack2 c).bind (fun p => makeVal p.1 p.2))

/-- A waypoint pair as the Python tuple value the caller passes. -/
def coordVal (c : ℤ × ℤ) : PyVal := .tuple [.int c.1, .int c.2]

/-- `Tile.create_path` (`model.py` lines 137-154). Line 142 calls
`Tile.create_list(coordinates)` on the collected waypoint tuple
WITHOUT unpacking it (no `*`), so `create_list`'s own starred parameter
collects that whole tuple as its single element, and the comprehension
unpacks the waypoint tuple itself as one `(x, y)` pair. The code after
the call (the empty check, then the walking loop over
`step_towards`, embedded in `path_segments`) runs only if `create_list`
returns. -/
def create_path (coordinates : List (ℤ × ℤ)) : Except PyError (List Tile) :=
  (create_list [PyVal.tuple (coordinates.map coordVal)]).bind
    (fun waypoints =>
      match waypoints with
      | [] => Except.error PyError.valueError
      | w :: rest => Except.ok (w :: path_segments w rest))

end Tile

/-- Decimal digit characters of a natural number, most significant
digit first, as Python's `str` renders a non-negative int. -/
def natDecimal (n : ℕ) : List Char :=
  if h : n < 10 then [Char.ofNat (48 + n)]
  else natDecimal (n / 10) ++ [Char.ofNat (48 + n % 10)]
termination_by n
decreasing_by exact Nat.div_lt_self (by omega) (by norm_num)

/-- Python `str` on an int: an optional minus sign, then the decimal
digits. -/
def intDecimal (y : ℤ) : List Char :=
  if y < 0 then '-' :: natDecimal (-y).toNat else natDecimal y.toNat

/-- `Tile.__repr__` / `__str__` (`model.py` lines 111-116):
`chr(x + 64)` followed by the decimal rendering of `y`. -/
def Tile.repr (t : Tile) : List Char :=
  Char.ofNat (t.x + 64).toNat :: intDecimal t.y

/-- The numeric value of a digit character. -/
def digitVal (c : Char) : ℕ := c.toNat - 48

/-- Python `int` on a string of decimal digits: fails (`none`) on an
empty or non-digit string. -/
def parseNat (cs : List Char) : Option ℕ :=
  if cs = [] then none
  else if cs.all Char.isDigit then
    some (cs.foldl (fun a c => 10 * a + digitVal c) 0)
  else none

/-- Python `int` on a signed decimal string: an optional leading minus
sign, then digits. -/
def parseInt (cs : List Char) : Option ℤ :=
  if cs.headI = '-' then (parseNat cs.tail).map (fun n => -(n : ℤ))
  else (parseNat cs).map (fun n => (n : ℤ))

/-- `Tile.from_string` (`model.py` lines 118-128): fails on fewer than
two characters, otherwise decodes `ord(first) - 64` as x, parses the
remainder as decimal y, and validates through the `Tile` constructor. -/
def Tile.from_string (encoded : List Char) : Option Tile :=
  if encoded.length < 2 then none
  else
    (parseInt encoded.tail).bind (fun y =>
      Tile.make ((encoded.headI.toNat : ℤ) - 64) y)

/-- `Piece` (`model.py`, lines 157-177): owner and path index; the
constructor rejects negative path indices, so the index is a `ℕ`. -/
structure Piece where
  owner : PlayerType
  path_index : ℕ
deriving DecidableEq

/-- `Move` (`model.py`, class `Move`): the six fields stored by
`Move.__init__` after its checks pass. -/
structure Move where
  player : PlayerType
  source : Option Tile
  source_piece : Option Piece
  dest : Option Tile
  dest_piece : Option Piece
  captured_piece : Option Piece
deriving DecidableEq

namespace Move

/-- `Move.__init__` (`model.py` lines 238-259): the three `ValueError`
checks in order, then the six fields are stored unchanged. -/
def make (player : PlayerType) (source : Option Tile) (source_piece : Option Piece)
    (dest : Option Tile) (dest_piece : Option Piece) (captured_piece : Option Piece) :
    Option Move :=
  if source.isNone ≠ source_piece.isNone then none
  else if dest.isNone ≠ dest_piece.isNone then none
  else if dest.isNone ∧ captured_piece.isSome then none
  else some ⟨player, source, source_piece, dest, dest_piece, captured_piece⟩

/-- `Move.is_introducing_piece`: `self.source is None`. -/
def is_introducing_piece (m : Move) : Bool := m.source.isNone

/-- `Move.is_scoring_piece`: `self.dest is None`. -/
def is_scoring_piece (m : Move) : Bool := m.dest.isNone

/-- `Move.is_capture`: `self.captured_piece is not None`. -/
def is_capture (m : Move) : Bool := m.captured_piece.isSome

/-- `Move.get_source`: the raising accessor, `none` models the
`RuntimeError` on an absent source. -/
def get_source (m : Move) : Option Tile := m.source

/-- `Move.get_dest`: the raising accessor, `none` models the
`RuntimeError` on an absent destination. -/
def get_dest (m : Move) : Option Tile := m.dest

/-- `Move.describe` (`model.py` lines 352-375); `none` would model a
`RuntimeError` escaping from `get_source`/`get_dest`, and the string is
assembled exactly as the Python builder concatenation does. -/
def describe (m : Move) : Option (List Char) :=
  if m.is_scoring_piece && m.is_introducing_piece then
    some ("Introduce and score a piece.".data)
  else if m.is_scoring_piece then
    m.get_source.map (fun s => "Score a piece from ".data ++ Tile.repr s ++ ".".data)
  else
    (if m.is_introducing_piece then some ("Introduce a piece to ".data)
     else m.get_source.map (fun s => "Move ".data ++ Tile.repr s ++ " to ".data)).bind
      (fun start =>
        m.get_dest.map (fun d =>
          start ++ (if m.is_capture then "capture ".data else []) ++
            Tile.repr d ++ ".".data))

end Move

/-! ## Helper lemmas -/

/-- The running product `nChooseK * (num_die - roll) // (roll + 1)` steps
the binomial coefficient from `C(n, roll)` to `C(n, roll + 1)`; the
integer division is exact. -/
theorem choose_step (n roll : ℕ) :
    n.choose roll * (n - roll) / (roll + 1) = n.choose (roll + 1) := by
  rw [← Nat.choose_succ_right_eq n roll]
  exact Nat.mul_div_cancel _ (Nat.succ_pos roll)

/-- When the loop is entered with `nChooseK = C(n, roll)`, its `iters`
appended entries are `C(n, roll + i) * 0.5^n` for `i = 0, …, iters-1`. -/
theorem rollProbabilitiesLoop_eq (n : ℕ) (iters : ℕ) : ∀ roll : ℕ,
    BinaryDice.rollProbabilitiesLoop n (n.choose roll) roll iters
      = (List.range iters).map (fun i => (1 / 2 : ℚ) ^ n * (n.choose (roll + i))) := by
  induction iters with
  | zero => intro roll; simp [BinaryDice.rollProbabilitiesLoop]
  | succ k ih =>
      intro roll
      rw [BinaryDice.rollProbabilitiesLoop, choose_step, ih (roll + 1),
        List.range_succ_eq_map]
      simp only [List.map_cons, List.map_map, Nat.add_zero]
      refine congrArg₂ _ rfl ?_
      refine congrArg₂ _ (funext fun i => ?_) rfl
      simp [Function.comp, Nat.add_comm, Nat.add_assoc, Nat.add_left_comm]

/-- Closed form of `BinaryDice`'s probability list: the exact binomial
distribution with `p = 1/2`. -/
theorem rollProbabilities_eq (n : ℕ) :
    BinaryDice.rollProbabilities n
      = (List.range (n + 1)).map (fun k => (1 / 2 : ℚ) ^ n * (n.choose k)) := by
  have h := rollProbabilitiesLoop_eq n (n + 1) 0
  simpa [BinaryDice.rollProbabilities] using h

/-- Sums over `List.range` agree with sums over `Finset.range`. -/
theorem list_range_map_sum (m : ℕ) (f : ℕ → ℚ) :
    ((List.range m).map f).sum = ∑ i ∈ Finset.range m, f i := by
  induction m with
  | zero => simp
  | succ k ih => simp [List.range_succ, Finset.sum_range_succ, ih]

/-- Bound on the roll-counting loop of `BinaryDice.roll_value`: folding
over a list adds at most one per element. -/
theorem foldl_flips_le (flips : ℕ → Bool) (l : List ℕ) : ∀ a : ℕ,
    l.foldl (fun value i => if flips i then value + 1 else value) a ≤ a + l.length := by
  induction l with
  | nil => intro a; simp
  | cons x xs ih =>
      intro a
      simp only [List.foldl_cons, List.length_cons]
      by_cases h : flips x
      · simpa [h] using (ih (a + 1)).trans (by omega)
      · simpa [h] using (ih a).trans (by omega)

/-- `BinaryDice.roll_value` never exceeds the number of dice. -/
theorem roll_value_le (n : ℕ) (flips : ℕ → Bool) :
    BinaryDice.roll_value n flips ≤ n := by
  simpa using foldl_flips_le flips (List.range n) 0

namespace Tile

theorem manhattan_eq_zero_iff {a b : Tile} : manhattan a b = 0 ↔ a = b := by
  obtain ⟨ax, ay⟩ := a
  obtain ⟨bx, by'⟩ := b
  simp only [manhattan, Tile.mk.injEq]
  omega

/-- One application of `step_towards` toward a distinct target lands at
Manhattan distance exactly one less than before. -/
theorem manhattan_step_towards (t o : Tile) (h : t ≠ o) :
    manhattan (step_towards t o) o = manhattan t o - 1 := by
  obtain ⟨tx, ty⟩ := t
  obtain ⟨ox, oy⟩ := o
  have hne : ¬(tx = ox ∧ ty = oy) := by
    intro hc; exact h (by simp [hc.1, hc.2])
  simp only [step_towards, manhattan]
  split_ifs <;> simp only [manhattan] <;> omega

/-- The loop measure strictly decreases (C9's core fact, used for the
well-founded definition of the walking loop). -/
theorem manhattan_step_towards_lt (t o : Tile) (h : t ≠ o) :
    manhattan (step_towards t o) o < manhattan t o := by
  have h0 : manhattan t o ≠ 0 := fun hc => h (manhattan_eq_zero_iff.mp hc)
  rw [manhattan_step_towards t o h]
  omega

/-- What `create_path` actually does on any waypoint list: the whole
waypoint tuple reaches `create_list` as one element, so with exactly
two waypoints the comprehension unpacks it as the two waypoint pairs
and `Tile(pair, pair)` raises `TypeError` at the `x < 1` comparison;
with any other number of waypoints the `x, y = waypoint-tuple`
unpacking itself raises `ValueError`. The call raises before the empty
check and the walking loop ever run. -/
theorem create_path_error (cs : List (ℤ × ℤ)) :
    create_path cs
      = Except.error
          (if cs.length = 2 then PyError.typeError else PyError.valueError) := by
  rcases cs with _ | ⟨a, _ | ⟨b, _ | ⟨c, rest⟩⟩⟩
  · rfl
  · rfl
  · rfl
  · rw [if_neg (by simp)]
    rfl

end Tile

theorem natDecimal_ne_nil : ∀ n : ℕ, natDecimal n ≠ [] := by
  intro n
  rw [natDecimal]
  split <;> simp

theorem digit_char_spec (d : ℕ) (h : d < 10) :
    (Char.ofNat (48 + d)).isDigit = true ∧ digitVal (Char.ofNat (48 + d)) = d := by
  interval_cases d <;> exact ⟨by decide, by decide⟩

theorem natDecimal_all_digits : ∀ n : ℕ, (natDecimal n).all Char.isDigit = true := by
  intro n
  induction n using natDecimal.induct with
  | case1 n h =>
      rw [natDecimal, dif_pos h]
      simpa using (digit_char_spec n h).1
  | case2 n h ih =>
      rw [natDecimal, dif_neg h]
      rw [List.all_append]
      refine Bool.and_eq_true_iff.mpr ⟨ih, ?_⟩
      simpa using (digit_char_spec (n % 10) (Nat.mod_lt n (by omega))).1

theorem natDecimal_foldl : ∀ n : ℕ, ∀ a : ℕ,
    (natDecimal n).foldl (fun acc c => 10 * acc + digitVal c) a
      = a * 10 ^ (natDecimal n).length + n := by
  intro n
  induction n using natDecimal.induct with
  | case1 n h =>
      intro a
      rw [natDecimal, dif_pos h]
      simp [(digit_char_spec n h).2, Nat.mul_comm]
  | case2 n h ih =>
      intro a
      rw [natDecimal, dif_neg h]
      rw [List.foldl_append]
      simp only [List.foldl_cons, List.foldl_nil]
      rw [ih a, (digit_char_spec (n % 10) (Nat.mod_lt n (by omega))).2]
      rw [List.length_append, List.length_singleton]
      set L := (natDecimal (n / 10)).length with hL
      conv_rhs => rw [← Nat.div_add_mod n 10]
      ring

theorem parseNat_natDecimal (n : ℕ) : parseNat (natDecimal n) = some n := by
  rw [parseNat, if_neg (by simpa using natDecimal_ne_nil n),
    if_pos (natDecimal_all_digits n), natDecimal_foldl n 0]
  simp

theorem char_ofNat_toNat_letter (m : ℕ) (h1 : 1 ≤ m) (h2 : m ≤ 26) :
    (Char.ofNat (m + 64)).toNat = m + 64 := by
  interval_cases m <;> decide

theorem natDecimal_headI_isDigit (n : ℕ) : (natDecimal n).headI.isDigit = true := by
  rcases hh : natDecimal n with _ | ⟨c, ds⟩
  · exact absurd hh (natDecimal_ne_nil n)
  · have hall := natDecimal_all_digits n
    rw [hh, List.all_cons] at hall
    simpa using (Bool.and_eq_true_iff.mp hall).1

/-! ## The claims -/

/-- C4: for every `BinaryDice` with `num_die = n`,
`get_roll_probabilities()` has length `n + 1`, its entry at index `k`
is the exact binomial mass `C(n,k) * 0.5^n`, the entries sum to 1, and
for `n = 4` the list is `[0.0625, 0.25, 0.375, 0.25, 0.0625]`. -/
theorem binaryDice_probabilities_binomial (n : ℕ) :
    (BinaryDice.rollProbabilities n).length = n + 1 ∧
    (∀ k : ℕ, k ≤ n →
      (BinaryDice.rollProbabilities n)[k]? = some ((n.choose k : ℚ) * (1 / 2 : ℚ) ^ n)) ∧
    (BinaryDice.rollProbabilities n).sum = 1 ∧
    BinaryDice.rollProbabilities 4 = [0.0625, 0.25, 0.375, 0.25, 0.0625] := by
  refine ⟨?_, ?_, ?_, ?_⟩
  · rw [rollProbabilities_eq]; simp
  · intro k hk
    rw [rollProbabilities_eq]
    simp [List.getElem?_map, List.getElem?_range, Nat.lt_succ_of_le hk, mul_comm]
  · rw [rollProbabilities_eq, list_range_map_sum, ← Finset.mul_sum]
    have h : ∑ i ∈ Finset.range (n + 1), ((n.choose i : ℚ)) = (2 : ℚ) ^ n := by
      exact_mod_cast congrArg (Nat.cast : ℕ → ℚ) (Nat.sum_range_choose n)
    rw [h, div_pow, one_pow]
    field_simp
  · norm_num [BinaryDice.rollProbabilities, BinaryDice.rollProbabilitiesLoop]

/-- C4 witness: the index lemma at `n = 4`, `k = 2` gives the middle
entry `C(4,2) * 0.5^4 = 0.375`. -/
theorem binaryDice_probabilities_binomial_witness :
    (BinaryDice.rollProbabilities 4)[2]? = some (((4 : ℕ).choose 2 : ℚ) * (1 / 2 : ℚ) ^ 4) :=
  (binaryDice_probabilities_binomial 4).2.1 2 (by norm_num)

/-- C1 (code bug): the claim says `get_max_roll_value()` returns
`num_die + 1`. The `__init__` does set the `_max_roll_value` slot to
`num_die + 1` (4 for the n = 3 configuration) and the reassigned
probability vector is the claimed remapped one, but the getter reads
`self.max_roll_value`, a name no slot or property defines, so every
call raises `AttributeError` and the value `num_die + 1` is never
returned. -/
theorem binaryDice0AsMax_get_max_roll_value_raises :
    (∀ num_die : ℕ, BinaryDice0AsMax.get_max_roll_value num_die
        = Except.error PyError.attributeError) ∧
    (∀ num_die : ℕ,
      BinaryDice0AsMax.get_max_roll_value num_die ≠ Except.ok (num_die + 1)) ∧
    BinaryDice0AsMax.max_roll_value 3 = 4 ∧
    BinaryDice0AsMax.rollProbabilities 3 = [0, 0.375, 0.375, 0.125, 0.125] := by
  refine ⟨fun _ => rfl, fun n h => by exact Except.noConfusion h, rfl, ?_⟩
  norm_num [BinaryDice0AsMax.rollProbabilities, BinaryDice.rollProbabilities,
    BinaryDice.rollProbabilitiesLoop]

/-- C6 (code bug): the `BinaryDice` half of the claim holds —
`generate_roll` fails exactly when `value < 0` or `value > num_die` —
but `BinaryDice0AsMax.generate_roll` never returns a `Roll` for any
value: `value ≤ 0` raises the claimed `ValueError`, and every
`value > 0` (in range or not) raises `AttributeError` at the
`self.max_roll_value` read before the range comparison; in particular
the in-range call `generate_roll(2)` on the n = 3 configuration
raises instead of returning `Roll(2)`. -/
theorem binaryDice0AsMax_generate_roll_raises :
    (∀ num_die : ℕ, ∀ value : ℤ,
      (BinaryDice.generate_roll num_die value = none ↔
        value < 0 ∨ value > (num_die : ℤ))) ∧
    (∀ num_die : ℕ, ∀ value : ℤ,
      BinaryDice0AsMax.generate_roll num_die value
        = Except.error
            (if value ≤ 0 then PyError.valueError else PyError.attributeError)) ∧
    (∀ num_die : ℕ, ∀ value : ℤ, ∀ r : Roll,
      BinaryDice0AsMax.generate_roll num_die value ≠ Except.ok r) ∧
    BinaryDice0AsMax.generate_roll 3 2 = Except.error PyError.attributeError := by
  have h2 : ∀ num_die : ℕ, ∀ value : ℤ,
      BinaryDice0AsMax.generate_roll num_die value
        = Except.error
            (if value ≤ 0 then PyError.valueError else PyError.attributeError) := by
    intro n v
    rw [BinaryDice0AsMax.generate_roll]
    split_ifs with h <;> rfl
  refine ⟨?_, h2, ?_, ?_⟩
  · intro n v
    rw [BinaryDice.generate_roll]
    split_ifs with h <;> simp [h]
  · intro n v r
    rw [h2]
    exact fun h => Except.noConfusion h
  · rw [h2]
    rfl

/-- C10: for every `BinaryDice` and every outcome of the random source,
the sampled value lies in `[0, num_die]`, so the error branch of
`generate_roll` is unreachable from `roll()` and `roll()` returns a
`Roll` wrapping the sampled value. -/
theorem binaryDice_roll_total (n : ℕ) (flips : ℕ → Bool) :
    BinaryDice.roll_value n flips ≤ n ∧
    BinaryDice.roll n flips = some ⟨(BinaryDice.roll_value n flips : ℤ)⟩ := by
  have hle := roll_value_le n flips
  refine ⟨hle, ?_⟩
  rw [BinaryDice.roll, BinaryDice.generate_roll, if_neg]
  simp only [not_or, not_lt]
  exact ⟨Int.natCast_nonneg _, by exact_mod_cast hle⟩

/-- C2 counterexample: for the valid tiles `A1` and `B2` the absolute
deltas tie (`|dx| = |dy| = 1`, Manhattan distance 2), and
`step_towards` steps along the x-axis to `B1` — not along the y-axis
(`Tile(t.x, t.y ± 1)` would be `A2` or `A0`) as the claim states. -/
theorem step_towards_tie_counterexample :
    Tile.valid ⟨1, 1⟩ ∧ Tile.valid ⟨2, 2⟩ ∧
    2 ≤ ((2 : ℤ) - 1).natAbs + ((2 : ℤ) - 1).natAbs ∧
    Tile.step_towards ⟨1, 1⟩ ⟨2, 2⟩ = ⟨2, 1⟩ ∧
    Tile.step_towards ⟨1, 1⟩ ⟨2, 2⟩ ≠ ⟨1, 2⟩ ∧
    Tile.step_towards ⟨1, 1⟩ ⟨2, 2⟩ ≠ ⟨1, 0⟩ := by decide

/-- C2 amended: for valid tiles `t`, `u` at Manhattan distance at least
2, `step_towards` moves exactly one unit along the axis whose absolute
delta is strictly larger, and when the absolute deltas are equal the
step is taken along the x-axis (the strict `<` on the x-delta fails, so
the `else` branch runs), i.e. it returns `Tile(t.x ± 1, t.y)`. -/
theorem step_towards_larger_axis (t u : Tile) (ht : t.valid) (hu : u.valid)
    (hdist : 2 ≤ (u.x - t.x).natAbs + (u.y - t.y).natAbs) :
    ((u.x - t.x).natAbs < (u.y - t.y).natAbs →
      t.step_towards u = ⟨t.x, t.y + (if u.y - t.y > 0 then 1 else -1)⟩) ∧
    ((u.y - t.y).natAbs ≤ (u.x - t.x).natAbs →
      t.step_towards u = ⟨t.x + (if u.x - t.x > 0 then 1 else -1), t.y⟩) := by
  constructor
  · intro hlt
    simp only [Tile.step_towards]
    rw [if_neg (by omega), if_pos hlt]
  · intro hle
    simp only [Tile.step_towards]
    rw [if_neg (by omega), if_neg (by omega)]

/-- C2 witness: a strictly-larger y-delta steps along y
(`B2 → B5` steps to `B3`), and an x-tie-or-larger steps along x
(`A1 → C1` steps to `B1`). -/
theorem step_towards_larger_axis_witness :
    Tile.step_towards ⟨2, 2⟩ ⟨2, 5⟩ = ⟨2, 3⟩ ∧
    Tile.step_towards ⟨1, 1⟩ ⟨3, 1⟩ = ⟨2, 1⟩ := by
  constructor
  · have h := (step_towards_larger_axis ⟨2, 2⟩ ⟨2, 5⟩ (by decide) (by decide)
      (by decide)).1 (by decide)
    simpa using h
  · have h := (step_towards_larger_axis ⟨1, 1⟩ ⟨3, 1⟩ (by decide) (by decide)
      (by decide)).2 (by decide)
    simpa using h

/-- C3 (code bug): the claim says `create_path` builds the path — in
particular `[A1, A2, A3, A4]` from the waypoints `(1,1),(1,4)` — and
fails only on an empty waypoint list. Because line 142 passes the
collected waypoint tuple to `create_list` without `*`, every call
raises instead: `TypeError` with exactly two waypoints (from
`Tile((1,1),(1,4))` evaluating `(1,1) < 1`), an unpacking `ValueError`
with any other number (the empty list included, so even that case
raises from the unpacking, not from the `len(waypoints) == 0` check).
No call ever returns a path. -/
theorem create_path_raises :
    (∀ cs : List (ℤ × ℤ), Tile.create_path cs
        = Except.error
            (if cs.length = 2 then PyError.typeError else PyError.valueError)) ∧
    Tile.create_path [(1, 1), (1, 4)] = Except.error PyError.typeError ∧
    (∀ cs : List (ℤ × ℤ), ∀ p : List Tile, Tile.create_path cs ≠ Except.ok p) := by
  refine ⟨Tile.create_path_error, ?_, ?_⟩
  · rw [Tile.create_path_error]
    rfl
  · intro cs p
    rw [Tile.create_path_error]
    exact fun h => Except.noConfusion h

/-- C9 (code bug): the claimed loop measure is real — `step_towards`
toward a not-yet-reached tile strictly decreases the Manhattan
distance, which is what makes the embedded `walk` well-founded — but
the claim that the whole `create_path` operation completes fails: the
unstarred `create_list` call raises on every input before the walking
loop is reached. -/
theorem create_path_never_completes :
    (∀ current nxt : Tile, current = nxt ∨
      Tile.manhattan (Tile.step_towards current nxt) nxt
        < Tile.manhattan current nxt) ∧
    (∀ cs : List (ℤ × ℤ), ∃ e : PyError, Tile.create_path cs = Except.error e) ∧
    Tile.create_path [(1, 1), (5, 1)] = Except.error PyError.typeError := by
  refine ⟨?_, ?_, ?_⟩
  · intro c n
    by_cases h : c = n
    · exact Or.inl h
    · exact Or.inr (Tile.manhattan_step_towards_lt c n h)
  · intro cs
    exact ⟨_, Tile.create_path_error cs⟩
  · rw [Tile.create_path_error]
    rfl

/-- C5: `Tile(1,1)` encodes to `"A1"` and `"A1"` decodes to
`Tile(1,1)`; for every valid tile (x in [1,26], y ≥ 0), decoding the
encoded text (letter `A`=1..`Z`=26 for x, then the decimal y) returns
the tile itself. -/
theorem tile_text_round_trip :
    Tile.repr ⟨1, 1⟩ = "A1".data ∧
    Tile.from_string ("A1".data) = some ⟨1, 1⟩ ∧
    (∀ t : Tile, t.valid → Tile.from_string (Tile.repr t) = some t) := by
  refine ⟨?_, ?_, ?_⟩
  · rw [Tile.repr, intDecimal, if_neg (by decide), natDecimal, dif_pos (by decide)]
    decide
  · decide
  · rintro ⟨x, y⟩ ⟨h1, h2, h3⟩
    replace h1 : 1 ≤ x := h1
    replace h2 : x ≤ 26 := h2
    replace h3 : 0 ≤ y := h3
    have hxm : (x + 64).toNat = x.toNat + 64 := by omega
    have hchar : (Char.ofNat (x.toNat + 64)).toNat = x.toNat + 64 :=
      char_ofNat_toNat_letter x.toNat (by omega) (by omega)
    have hint : intDecimal y = natDecimal y.toNat := by
      rw [intDecimal, if_neg (by omega)]
    have hnil := natDecimal_ne_nil y.toNat
    rw [Tile.repr]
    simp only [hxm, hint]
    rw [Tile.from_string, if_neg (by
      simp only [List.length_cons]
      have := List.length_pos.mpr hnil
      omega)]
    simp only [List.headI_cons, List.tail_cons]
    rw [parseInt, if_neg (by
      intro hc
      have hd := natDecimal_headI_isDigit y.toNat
      rw [hc] at hd
      exact absurd hd (by decide))]
    rw [parseNat_natDecimal]
    show Tile.make (((Char.ofNat (x.toNat + 64)).toNat : ℤ) - 64) ((y.toNat : ℕ) : ℤ)
        = some ⟨x, y⟩
    rw [hchar, Tile.make, if_neg (by push_cast; omega), if_neg (by omega)]
    simp only [Option.some.injEq, Tile.mk.injEq]
    constructor <;> omega

/-- C5 witness: the round trip through the text encoding at the valid
tile `C12`. -/
theorem tile_text_round_trip_witness :
    Tile.from_string (Tile.repr ⟨3, 12⟩) = some ⟨3, 12⟩ :=
  tile_text_round_trip.2.2 ⟨3, 12⟩ (by decide)

/-- C7: `Move` construction fails exactly when source and source_piece
presence differ, or dest and dest_piece presence differ, or a captured
piece is given without a dest; otherwise the move stores all six
arguments unchanged — so every constructed `Move` satisfies the three
invariants. -/
theorem move_construction_invariants (player : PlayerType)
    (source : Option Tile) (source_piece : Option Piece) (dest : Option Tile)
    (dest_piece : Option Piece) (captured_piece : Option Piece) :
    (Move.make player source source_piece dest dest_piece captured_piece = none ↔
      (source.isNone ≠ source_piece.isNone ∨ dest.isNone ≠ dest_piece.isNone ∨
        (dest.isNone ∧ captured_piece.isSome))) ∧
    (∀ m : Move,
      Move.make player source source_piece dest dest_piece captured_piece = some m →
      m.player = player ∧ m.source = source ∧ m.source_piece = source_piece ∧
      m.dest = dest ∧ m.dest_piece = dest_piece ∧ m.captured_piece = captured_piece ∧
      (m.source.isNone ↔ m.source_piece.isNone) ∧
      (m.dest.isNone ↔ m.dest_piece.isNone) ∧
      (m.captured_piece.isSome → m.dest.isSome)) := by
  constructor
  · rw [Move.make]
    split_ifs with hA hB hC <;> simp_all
  · intro m hm
    rw [Move.make] at hm
    split_ifs at hm with hA hB hC
    rw [not_ne_iff] at hA hB
    injection hm with hm
    subst hm
    refine ⟨rfl, rfl, rfl, rfl, rfl, rfl, ?_, ?_, ?_⟩
    · rw [show (Move.mk player source source_piece dest dest_piece
        captured_piece).source = source from rfl, hA]
    · rw [show (Move.mk player source source_piece dest dest_piece
        captured_piece).dest = dest from rfl, hB]
    · cases dest <;> cases captured_piece <;> simp_all

/-- C7 witness: a fully-absent move constructs and satisfies the
invariants; its fields are stored unchanged. -/
theorem move_construction_invariants_witness :
    Move.make PlayerType.LIGHT none none none none none
        = some ⟨PlayerType.LIGHT, none, none, none, none, none⟩ ∧
    ((⟨PlayerType.LIGHT, none, none, none, none, none⟩ : Move).captured_piece.isSome →
      (⟨PlayerType.LIGHT, none, none, none, none, none⟩ : Move).dest.isSome) := by
  refine ⟨rfl, ?_⟩
  have h := (move_construction_invariants PlayerType.LIGHT none none none none none).2
    ⟨PlayerType.LIGHT, none, none, none, none, none⟩ rfl
  exact h.2.2.2.2.2.2.2.2

/-- C8: `describe()` returns exactly "Introduce and score a piece."
when source and dest are both absent, exactly "Score a piece from
{source}." when only dest is absent, and otherwise "Introduce a piece
to " or "Move {source} to ", then "capture " exactly when a piece is
captured, then the destination's encoding and ".". -/
theorem move_describe_text (m : Move) :
    (m.source = none → m.dest = none →
      m.describe = some ("Introduce and score a piece.".data)) ∧
    (∀ s : Tile, m.source = some s → m.dest = none →
      m.describe = some ("Score a piece from ".data ++ Tile.repr s ++ ".".data)) ∧
    (∀ d : Tile, m.dest = some d →
      m.describe = some (
        (match m.source with
         | none => "Introduce a piece to ".data
         | some s => "Move ".data ++ Tile.repr s ++ " to ".data) ++
        (if m.captured_piece.isSome then "capture ".data else []) ++
        Tile.repr d ++ ".".data)) := by
  obtain ⟨player, source, source_piece, dest, dest_piece, captured⟩ := m
  refine ⟨?_, ?_, ?_⟩
  · rintro rfl rfl
    rw [Move.describe]
    simp [Move.is_scoring_piece, Move.is_introducing_piece]
  · rintro s rfl rfl
    rw [Move.describe]
    simp [Move.is_scoring_piece, Move.is_introducing_piece, Move.get_source]
  · rintro d rfl
    rw [Move.describe]
    cases source <;>
      simp [Move.is_scoring_piece, Move.is_introducing_piece, Move.is_capture,
        Move.get_source, Move.get_dest, List.append_assoc]

/-- C8 witness: the introduce-and-score sentence on a concrete move
with neither source nor destination. -/
theorem move_describe_text_witness :
    Move.describe ⟨PlayerType.LIGHT, none, none, none, none, none⟩
      = some ("Introduce and score a piece.".data) :=
  (move_describe_text ⟨PlayerType.LIGHT, none, none, none, none, none⟩).1 rfl rfl

end RoyalUr
